import Mathlib

/-!
Verification development for the PyLg trace-formatting and call-context
engine (`pylg/pylg.py`).  The Python source is shallowly embedded below:
strings are `List Char`, stateful class attributes become explicit state
records, Python exceptions become `Except PyErr`, and the calls into the
standard-library function `textwrap.wrap` are modelled by an executable
greedy word-wrap that follows CPython's `TextWrapper` with its default
options (`expand_tabs`, `replace_whitespace`, `drop_whitespace`,
`break_long_words`; only the `break_on_hyphens` chunk rule is omitted, so
the model is exact for messages that do not hyphenate words).
-/

set_option maxRecDepth 4096

namespace PyLg

/-- Shorthand turning a string literal into the `List Char` carrier used by
the whole embedding. -/
def chars (s : String) : List Char := s.data

/-- Python exceptions that the embedded code can raise. -/
inductive PyErr where
  | attributeError
  | valueError
  | assertionError
  | keyError
  | indexError
  deriving DecidableEq

/-- State of the process-wide `ClassNameStack` in `pylg.py`.  `disabled`
records whether `ClassNameStack.disable()` has been executed (which happens
exactly when the `class_name_resolution` setting is false): `disable`
replaces `insert`, `pop` and `get` by no-op lambdas, but leaves `peek`
untouched and does not define `get` otherwise. -/
structure StackState where
  stack : List (List Char)
  disabled : Bool
  deriving DecidableEq

/-- The empty, enabled stack (initial `ClassNameStack.stack = []`). -/
def emptyStack : StackState := ⟨[], false⟩

namespace ClassNameStack

/-- `ClassNameStack.insert` (pylg.py line 41): appends at the tail; a no-op
after `disable()`. -/
def insert (st : StackState) (c : List Char) : StackState :=
  if st.disabled then st else { st with stack := st.stack ++ [c] }

/-- `ClassNameStack.pop` (line 53): `cls.stack.pop() if cls.stack else None`;
removes the tail element if present, else does nothing; a no-op after
`disable()`. -/
def pop (st : StackState) : StackState :=
  if st.disabled then st else { st with stack := st.stack.dropLast }

/-- `ClassNameStack.peek` (line 58): the tail element or `None`, without
removal.  `disable()` does not replace `peek`. -/
def peek (st : StackState) : Option (List Char) :=
  st.stack.getLast?

/-- `ClassNameStack.get`, as called by `trace` (line 493).  The class body
never defines `get`; it only comes into existence when `disable()` assigns
`cls.get = lambda: None`.  Hence: after `disable()` it returns `None`,
otherwise the attribute lookup raises `AttributeError`. -/
def get (st : StackState) : Except PyErr (Option (List Char)) :=
  if st.disabled then Except.ok Option.none else Except.error PyErr.attributeError

end ClassNameStack

/-- One invocation of a mutating `ClassNameStack` method. -/
inductive StackOp where
  | push (c : List Char)
  | pop
  deriving DecidableEq

/-- Run a sequence of push/pop method calls against a stack state. -/
def runOps (st : StackState) : List StackOp → StackState
  | [] => st
  | StackOp.push c :: ops => runOps (ClassNameStack.insert st c) ops
  | StackOp.pop :: ops => runOps (ClassNameStack.pop st) ops

/-- Number of push calls in an operation sequence. -/
def numPushes : List StackOp → Nat
  | [] => 0
  | StackOp.push _ :: ops => numPushes ops + 1
  | StackOp.pop :: ops => numPushes ops

/-- Number of pop calls in an operation sequence. -/
def numPops : List StackOp → Nat
  | [] => 0
  | StackOp.push _ :: ops => numPops ops
  | StackOp.pop :: ops => numPops ops + 1

/-- Decimal digit string of a natural number, as Python prints it. -/
def natDigits (n : Nat) : List Char := Nat.toDigits 10 n

/-- Python's format spec `"{x:{w}.{w}}"` applied to a string (used for the
filename and function columns, pylg.py lines 506 and 515): truncate to `w`
characters, then left-justify by padding with blanks to width `w`. -/
def pyFormatLJ (w : Nat) (s : List Char) : List Char :=
  let t := s.take w
  t ++ List.replicate (w - t.length) ' '

/-- Python's format spec `"{n:0{w}}"` applied to a natural number (the line
number column, line 512): the decimal digits, zero-padded on the left to a
minimum width `w`, never truncated. -/
def pyFormatZero (w : Nat) (n : Nat) : List Char :=
  List.replicate (w - (natDigits n).length) '0' ++ natDigits n

/-- Concatenation of a list of chunks: Python's `''.join`. -/
def catChunks : List (List Char) → List Char
  | [] => []
  | c :: cs => c ++ catChunks cs

/-- Total character count of a chunk list. -/
def sumLen : List (List Char) → Nat
  | [] => 0
  | c :: cs => c.length + sumLen cs

/-- Fuel measure for the wrapping loop: characters plus chunk count. -/
def chunkMeasure : List (List Char) → Nat
  | [] => 0
  | c :: cs => c.length + 1 + chunkMeasure cs

/-- A chunk whose `str.strip()` is empty: all blanks (the empty chunk
qualifies), mirroring `cur_line[-1].strip() == ''` in CPython's wrapper. -/
def isSpaceChunk (c : List Char) : Bool := c.all (fun a => a == ' ')

/-- Accumulate one maximal run of blank or non-blank characters
(`sp` says which kind the run collects). -/
def chunksGo (cur : List Char) (sp : Bool) : List Char → List (List Char)
  | [] => [cur.reverse]
  | c :: cs =>
    if (c == ' ') == sp then chunksGo (c :: cur) sp cs
    else cur.reverse :: chunksGo [c] (c == ' ') cs

/-- CPython `TextWrapper._split` restricted to blank/word runs: a line is
split into alternating maximal runs of blanks and of non-blank characters. -/
def splitChunks : List Char → List (List Char)
  | [] => []
  | c :: cs => chunksGo [c] (c == ' ') cs

/-- The greedy inner loop of `_wrap_chunks`: starting from an occupied width
`cur`, move whole chunks onto the current line while they fit in `w`.
Returns the consumed chunks and the remainder. -/
def fillLine (w : Nat) (cur : Nat) : List (List Char) → List (List Char) × List (List Char)
  | [] => ([], [])
  | c :: cs =>
    if cur + c.length ≤ w then
      let p := fillLine w (cur + c.length) cs
      (c :: p.1, p.2)
    else ([], c :: cs)

/-- One iteration of CPython's `_wrap_chunks` outer loop on a chunk list from
which a leading blank chunk has already been discarded when appropriate:
greedy fill, `_handle_long_word` when the next chunk alone is wider than
`w`, the single trailing-blank-chunk drop, and the emitted line (if the
collected chunks are nonempty).  Returns the optional line and the
remaining chunks. -/
def wrapStep (w : Nat) (cs : List (List Char)) : Option (List Char) × List (List Char) :=
  let p := fillLine w 0 cs
  let cur := p.1
  let q : List (List Char) × List (List Char) :=
    match p.2 with
    | [] => (cur, [])
    | r0 :: rtail =>
      if w < r0.length then
        let sl := if w < 1 then 1 else w - sumLen cur
        (cur ++ [r0.take sl], r0.drop sl :: rtail)
      else (cur, r0 :: rtail)
  let cur3 : List (List Char) :=
    match q.1.getLast? with
    | Option.some lastC => if isSpaceChunk lastC then q.1.dropLast else q.1
    | Option.none => q.1
  if cur3.isEmpty then (Option.none, q.2) else (Option.some (catChunks cur3), q.2)

/-- CPython's `_wrap_chunks` outer loop (fuelled; `chunkMeasure` fuel always
suffices, and running out of fuel yields `[]`).  `emitted` tracks whether a
line has been produced so far, which governs the leading-blank-chunk drop
(`drop_whitespace ... and lines`). -/
def wrapGo (w : Nat) : Nat → Bool → List (List Char) → List (List Char)
  | 0, _, _ => []
  | _ + 1, _, [] => []
  | fuel + 1, e, c0 :: rest0 =>
    let cs := if e && isSpaceChunk c0 then rest0 else c0 :: rest0
    match wrapStep w cs with
    | (Option.some l, rest2) => l :: wrapGo w fuel true rest2
    | (Option.none, rest2) => wrapGo w fuel e rest2

/-- Python `str.expandtabs(8)`: each tab becomes the number of blanks that
reaches the next multiple-of-8 column; the column counter resets to zero
after a line feed or a carriage return and otherwise advances by one per
character. -/
def pyExpandTabsGo (tabsize : Nat) : Nat → List Char → List Char
  | _, [] => []
  | col, c :: cs =>
    if c = '\t' then
      List.replicate (tabsize - col % tabsize) ' '
        ++ pyExpandTabsGo tabsize (col + (tabsize - col % tabsize)) cs
    else if c = '\n' ∨ c = '\r' then c :: pyExpandTabsGo tabsize 0 cs
    else c :: pyExpandTabsGo tabsize (col + 1) cs

/-- The `str.translate` table `textwrap` applies for `replace_whitespace`:
each of the whitespace characters tab, line feed, vertical tab, form feed
and carriage return is rewritten to a blank. -/
def pyReplaceWS (l : List Char) : List Char :=
  l.map (fun c =>
    if c = '\t' ∨ c = '\n' ∨ c = '\x0b' ∨ c = '\x0c' ∨ c = '\r' then ' ' else c)

/-- CPython `TextWrapper._munge_whitespace` under the default options: first
`expand_tabs` (tab size 8), then `replace_whitespace`. -/
def pyMunge (l : List Char) : List Char := pyReplaceWS (pyExpandTabsGo 8 0 l)

/-- `textwrap.wrap(line, w)` for `w ≥ 1` (the module-default options): munge
the whitespace, split into chunks, run the greedy wrapper. -/
def wrapLines (w : Nat) (line : List Char) : List (List Char) :=
  wrapGo w (chunkMeasure (splitChunks (pyMunge line))) false (splitChunks (pyMunge line))

/-- `textwrap.wrap(line, w)` including the `ValueError` CPython raises in
`_wrap_chunks` whenever the width is not positive. -/
def pyWrap (w : Nat) (line : List Char) : Except PyErr (List (List Char)) :=
  if w = 0 then Except.error PyErr.valueError else Except.ok (wrapLines w line)

/-- Python `str.splitlines` restricted to the line feed separator. -/
def splitlinesPy : List Char → List (List Char)
  | [] => []
  | c :: cs =>
    if c = '\n' then [] :: splitlinesPy cs
    else
      match splitlinesPy cs with
      | [] => [[c]]
      | l :: ls => (c :: l) :: ls

/-- The wrap-mode emission loop of `trace` (pylg.py lines 554-567): the first
wrapped sub-line verbatim, every further sub-line preceded by a line feed
and `p` blanks of alignment padding. -/
def padJoin (p : Nat) : List (List Char) → List Char
  | [] => []
  | l :: ls => l ++ catChunks (ls.map (fun x => '\n' :: (List.replicate p ' ' ++ x)))

/-- The formatting options of `PyLg` consumed by `trace` (pylg.py lines
96-114).  The time column's rendered text is supplied externally, so only
the enable flag is kept for it. -/
structure Settings where
  trace_time : Bool
  trace_filename : Bool
  filename_column_width : Nat
  trace_lineno : Bool
  lineno_width : Nat
  trace_function : Bool
  function_column_width : Nat
  trace_message : Bool
  message_width : Nat
  message_wrap : Bool
  message_mark_truncation : Bool
  trace_self : Bool
  collapse_lists : Bool
  collapse_dicts : Bool
  deriving DecidableEq

/-- Rendering of one `splitlines` line of the message by `trace` (pylg.py
lines 537-607): wrap the line (raising `ValueError` on width 0); treat an
empty wrap result as one empty sub-line; prepend alignment padding unless
this is the first line; then either emit all wrapped sub-lines (wrap mode),
or only the first one, re-wrapped one character narrower and suffixed with
the `\` marker when truncation occurred and marking is on (with the
source's `assert wrapped` and `assert PyLg.message_width == 1` modelled as
`AssertionError`); terminate with a line feed. -/
def renderLine (s : Settings) (p : Nat) (idx : Nat) (line : List Char) : Except PyErr (List Char) :=
  if s.message_width = 0 then Except.error PyErr.valueError
  else
    let wpair : List Char × List (List Char) :=
      match wrapLines s.message_width line with
      | [] => ([], [])
      | a :: tl => (a, tl)
    let pre : List Char := if idx ≠ 0 then List.replicate p ' ' else []
    if s.message_wrap then
      Except.ok (pre ++ padJoin p (wpair.1 :: wpair.2) ++ ['\n'])
    else if s.message_mark_truncation && !wpair.2.isEmpty then
      if 1 < s.message_width then
        match wrapLines (s.message_width - 1) wpair.1 with
        | [] => Except.error PyErr.assertionError
        | t0 :: _ =>
          Except.ok (pre ++ (t0 ++ List.replicate (s.message_width - 1 - t0.length) ' ')
            ++ ['\\', '\n'])
      else if s.message_width = 1 then Except.ok (pre ++ ['\\', '\n'])
      else Except.error PyErr.assertionError
    else Except.ok (pre ++ wpair.1 ++ ['\n'])

/-- The `for idx, line in enumerate(lines)` loop of `trace`. -/
def renderLines (s : Settings) (p : Nat) : Nat → List (List Char) → Except PyErr (List Char)
  | _, [] => Except.ok []
  | idx, l :: ls =>
    match renderLine s p idx l with
    | Except.error e => Except.error e
    | Except.ok r =>
      match renderLines s p (idx + 1) ls with
      | Except.error e => Except.error e
      | Except.ok rest => Except.ok (r ++ rest)

/-- The whole message block of `trace` (pylg.py lines 520-607): nothing when
the message column is disabled; otherwise split the message into lines
(`[""]` when there are none) and render each. -/
def renderMessage (s : Settings) (p : Nat) (message : List Char) : Except PyErr (List Char) :=
  if s.trace_message then
    let lines0 := splitlinesPy message
    renderLines s p 0 (if lines0.isEmpty then [[]] else lines0)
  else Except.ok []

/-- Atomic Python values appearing in traced calls.  Container elements are
restricted to atoms, which covers every value the claims mention. -/
inductive PyAtom where
  | aNone
  | aBool (b : Bool)
  | aInt (n : Int)
  | aStr (s : List Char)
  deriving DecidableEq

/-- Python values appearing as traced arguments and return values. -/
inductive PyVal where
  | atom (a : PyAtom)
  | vList (l : List PyAtom)
  | vDict (l : List (PyAtom × PyAtom))
  deriving DecidableEq

/-- Python's decimal rendering of an integer. -/
def intStr (n : Int) : List Char :=
  if n < 0 then '-' :: natDigits (-n).toNat else natDigits n.toNat

/-- Comma-space separated join, as in Python container printing. -/
def commaSep : List (List Char) → List Char
  | [] => []
  | [x] => x
  | x :: y :: r => x ++ chars ", " ++ commaSep (y :: r)

/-- Python `repr` of an atom (string escaping inside quotes is not
modelled; the claims use only quote-free strings). -/
def pyAtomRepr : PyAtom → List Char
  | PyAtom.aNone => chars "None"
  | PyAtom.aBool true => chars "True"
  | PyAtom.aBool false => chars "False"
  | PyAtom.aInt n => intStr n
  | PyAtom.aStr s => '\'' :: (s ++ ['\''])

/-- Python `str` of a value, as produced by `"{}".format(value)`. -/
def pyStr : PyVal → List Char
  | PyVal.atom (PyAtom.aStr s) => s
  | PyVal.atom a => pyAtomRepr a
  | PyVal.vList l => '[' :: (commaSep (l.map pyAtomRepr) ++ [']'])
  | PyVal.vDict l =>
    '\x7b' :: (commaSep (l.map (fun kv => pyAtomRepr kv.1 ++ chars ": " ++ pyAtomRepr kv.2))
      ++ ['\x7d'])

/-- Python `type(value).__name__`. -/
def pyTypeName : PyVal → List Char
  | PyVal.atom PyAtom.aNone => chars "NoneType"
  | PyVal.atom (PyAtom.aBool _) => chars "bool"
  | PyVal.atom (PyAtom.aInt _) => chars "int"
  | PyVal.atom (PyAtom.aStr _) => chars "str"
  | PyVal.vList _ => chars "list"
  | PyVal.vDict _ => chars "dict"

/-- `TraceFunction.get_value_string` (pylg.py lines 442-452): lists and
dicts collapse to a length marker when the matching collapse setting is on,
anything else is `str(value)`. -/
def getValueString (collapseLists collapseDicts : Bool) (v : PyVal) : List Char :=
  match v with
  | PyVal.vList l =>
    if collapseLists then chars "[ len=" ++ natDigits l.length ++ chars " ]" else pyStr v
  | PyVal.vDict l =>
    if collapseDicts then chars "\x7b len=" ++ natDigits l.length ++ chars " \x7d" else pyStr v
  | _ => pyStr v

/-- The positional-argument loop of `trace_entry` (lines 366-376): one
`"name = value, "` piece per positional argument, skipping a parameter
named `self` unless `trace_self` is set. -/
def argPieces (traceSelf collapseLists collapseDicts : Bool) :
    List (List Char × PyVal) → List Char
  | [] => []
  | (nm, v) :: r =>
    (if !traceSelf && nm = chars "self" then []
     else nm ++ chars " = " ++ getValueString collapseLists collapseDicts v ++ chars ", ")
    ++ argPieces traceSelf collapseLists collapseDicts r

/-- Association-list lookup for keyword arguments and defaults. -/
def lookupAssoc (l : List (List Char × PyVal)) (k : List Char) : Option PyVal :=
  match l with
  | [] => Option.none
  | (a, v) :: r => if a = k then Option.some v else lookupAssoc r k

/-- The keyword-argument loop of `trace_entry` (lines 378-381):
`kwargs.get(name, defaults[name])` evaluates `defaults[name]` eagerly, so a
name with no recorded default raises (`defaults` being `None` and a missing
key are conflated into `keyError`); note this loop formats with plain
`str`, not `get_value_string`. -/
def kwPieces (defaults kwargs : List (List Char × PyVal)) :
    List (List Char) → Except PyErr (List Char)
  | [] => Except.ok []
  | nm :: r =>
    match lookupAssoc defaults nm with
    | Option.none => Except.error PyErr.keyError
    | Option.some d =>
      let v := (lookupAssoc kwargs nm).getD d
      match kwPieces defaults kwargs r with
      | Except.error e => Except.error e
      | Except.ok rest => Except.ok ((nm ++ chars " = " ++ pyStr v ++ chars ", ") ++ rest)

/-- The ENTRY message built by `TraceFunction.trace_entry` (lines 350-388):
`"-> ENTRY"`, then `": "` plus either the argument pieces with the final
`", "` stripped (`msg[:-2]`) when argument tracing is on, or `"---"` when
it is off; more positional arguments than recorded parameter names raises
`IndexError` at `varnames[arg]`. -/
def entryMsg (traceSelf traceArgs collapseLists collapseDicts : Bool)
    (varnames : List (List Char)) (defaults : List (List Char × PyVal))
    (args : List PyVal) (kwargs : List (List Char × PyVal)) : Except PyErr (List Char) :=
  if args.isEmpty && kwargs.isEmpty then Except.ok (chars "-> ENTRY")
  else if traceArgs then
    if varnames.length < args.length then Except.error PyErr.indexError
    else
      let pos := argPieces traceSelf collapseLists collapseDicts (varnames.zip args)
      match kwPieces defaults kwargs (varnames.drop args.length) with
      | Except.error e => Except.error e
      | Except.ok kw =>
        Except.ok (((chars "-> ENTRY: " ++ pos ++ kw).dropLast).dropLast)
  else Except.ok (chars "-> ENTRY: ---")

/-- The EXIT message built by `TraceFunction.trace_exit` (lines 390-411):
the bare `"<- EXIT "` when the return value is `None`, otherwise `": "`
plus the value (or `"---"` when return-value tracing is off) plus an
optional `" (type: ...)"` annotation. -/
def exitMsg (traceRv traceRvType collapseLists collapseDicts : Bool) (rv : PyVal) : List Char :=
  chars "<- EXIT " ++
    match rv with
    | PyVal.atom PyAtom.aNone => []
    | _ =>
      chars ": " ++ (if traceRv then getValueString collapseLists collapseDicts rv else chars "---")
        ++ (if traceRvType then chars " (type: " ++ pyTypeName rv ++ [')'] else [])

/-- The message built by `TraceFunction.trace_exception` (lines 413-440):
`"<- EXIT : <ExcName> RAISED"`, plus `" - <text>"` when the exception has
text, plus the traceback block when `exception_tb_file` is set (the
traceback text itself is an opaque input). -/
def excMsg (tbFile : Bool) (ename emsg tbText : List Char) : List Char :=
  let core := ename ++ chars " RAISED"
  let m := chars "<- EXIT : " ++ core
  let m2 := if emsg.isEmpty then m else m ++ chars " - " ++ emsg
  if tbFile then m2 ++ chars "\n--- EXCEPTION ---\n" ++ tbText ++ chars "-----------------"
  else m2

/-- The `trace` function of pylg.py (lines 455-612) with the call-site
fields supplied by a `TraceFunctionStruct`: look up the scope qualifier via
`ClassNameStack.get()` (line 493 — an `AttributeError` unless the stack was
disabled), qualify the function name unless the qualifier is `None` or
`"<module>"`, lay out the enabled time/file/line/function columns, and
append the rendered message block. -/
def traceFn (s : Settings) (st : StackState) (timeStr filename : List Char) (lineno : Nat)
    (functionname message : List Char) : Except PyErr (List Char) :=
  match ClassNameStack.get st with
  | Except.error e => Except.error e
  | Except.ok classname =>
    let fn :=
      match classname with
      | Option.some cn =>
        if cn ≠ chars "<module>" then cn ++ '.' :: functionname else functionname
      | Option.none => functionname
    let head :=
      (if s.trace_time then timeStr ++ chars "  " else [])
      ++ (if s.trace_filename then pyFormatLJ s.filename_column_width filename ++ chars "  " else [])
      ++ (if s.trace_lineno then pyFormatZero s.lineno_width lineno ++ chars ": " else [])
      ++ (if s.trace_function then pyFormatLJ s.function_column_width fn ++ chars "  " else [])
    match renderMessage s head.length message with
    | Except.error e => Except.error e
    | Except.ok m => Except.ok (head ++ m)

/-- Per-instance options of a bound `TraceFunction` (lines 185-192). -/
structure TFOpts where
  exception_tb_file : Bool
  exception_exit : Bool
  trace_args : Bool
  trace_rv : Bool
  trace_rv_type : Bool
  deriving DecidableEq

/-- The call-site metadata captured at bind time
(`TraceFunctionStruct`, lines 161-171 and 326-348). -/
structure FnStruct where
  filename : List Char
  lineno : Nat
  classname : List Char
  functionname : List Char
  varnames : List (List Char)
  defaults : List (List Char × PyVal)
  deriving DecidableEq

/-- Behaviour of the wrapped callable during one invocation. -/
inductive FnBehavior where
  | returns (rv : PyVal)
  | raises (ename emsg : List Char)
  deriving DecidableEq

/-- Observable outcome of one `TraceFunction.__call__` invocation. -/
inductive TFOutcome where
  | returned (rv : PyVal)
  | raisedWrapped
  | raisedInternal (e : PyErr)
  | exited
  deriving DecidableEq

/-- The ENTRY phase of `TraceFunction.__call__` (line 293 with
`trace_entry`, lines 350-388): build the ENTRY message and hand it to
`trace`. -/
def entryTrace (s : Settings) (o : TFOpts) (f : FnStruct) (st1 : StackState)
    (timeStr : List Char) (args : List PyVal) (kwargs : List (List Char × PyVal)) :
    Except PyErr (List Char) :=
  match entryMsg s.trace_self o.trace_args s.collapse_lists s.collapse_dicts
      f.varnames f.defaults args kwargs with
  | Except.error e => Except.error e
  | Except.ok m => traceFn s st1 timeStr f.filename f.lineno f.functionname m

/-- One bound invocation, `TraceFunction.__call__` lines 289-311: insert the
class name, trace ENTRY, run the callable; on normal return trace EXIT and
pop; on an exception trace it and either force-exit (`os._exit(1)`) or
re-raise — without popping.  The result carries the final stack state and
the list of `ClassNameStack` mutator calls that were made. -/
def tfCall (s : Settings) (o : TFOpts) (f : FnStruct) (st : StackState)
    (timeStr tbText : List Char) (args : List PyVal) (kwargs : List (List Char × PyVal))
    (beh : FnBehavior) : TFOutcome × StackState × List StackOp :=
  let st1 := ClassNameStack.insert st f.classname
  match entryTrace s o f st1 timeStr args kwargs with
  | Except.error e => (TFOutcome.raisedInternal e, st1, [StackOp.push f.classname])
  | Except.ok _ =>
    match beh with
    | FnBehavior.raises en em =>
      match traceFn s st1 timeStr f.filename f.lineno f.functionname
          (excMsg o.exception_tb_file en em tbText) with
      | Except.error e => (TFOutcome.raisedInternal e, st1, [StackOp.push f.classname])
      | Except.ok _ =>
        if o.exception_exit then (TFOutcome.exited, st1, [StackOp.push f.classname])
        else (TFOutcome.raisedWrapped, st1, [StackOp.push f.classname])
    | FnBehavior.returns rv =>
      match traceFn s st1 timeStr f.filename f.lineno f.functionname
          (exitMsg o.trace_rv o.trace_rv_type s.collapse_lists s.collapse_dicts rv) with
      | Except.error e => (TFOutcome.raisedInternal e, st1, [StackOp.push f.classname])
      | Except.ok _ =>
        (TFOutcome.returned rv, ClassNameStack.pop st1,
          [StackOp.push f.classname, StackOp.pop])

/-- The `if not wrapped: wrapped = [""]` fallback of `trace` (line 543):
an empty wrap result is replaced by a single empty sub-line. -/
def orEmptyLine (wr : List (List Char)) : List (List Char) :=
  match wr with
  | [] => [[]]
  | a :: tl => a :: tl

/-- Example configuration: every column disabled (the message column too). -/
def settingsQuiet : Settings :=
  ⟨false, false, 0, false, 0, false, 0, false, 0, false, false, false, false, false⟩

/-- Example configuration: message column enabled with the DEFAULT
`MESSAGE_WIDTH = 0` of settings.py (width zero, documented there as
meaning unlimited), wrap mode on. -/
def settingsW0 : Settings :=
  ⟨false, false, 0, false, 0, false, 0, true, 0, true, false, false, false, false⟩

/-- Example configuration: message column enabled, width 3, truncate mode
with truncation marking. -/
def settingsTrunc3 : Settings :=
  ⟨false, false, 0, false, 0, false, 0, true, 3, false, true, false, false, false⟩

/-- Example configuration: message column enabled, width 10, wrap mode. -/
def settingsWrap10 : Settings :=
  ⟨false, false, 0, false, 0, false, 0, true, 10, true, false, false, false, false⟩

/-- Example per-instance options: no traceback mirroring, no force-exit,
argument/return tracing on, no return-type annotation. -/
def optsPlain : TFOpts := ⟨false, false, true, true, false⟩

/-- Example bound-function record for a module-level `add(a, b)`. -/
def fnAdd : FnStruct :=
  ⟨chars "example.py", 10, chars "<module>", chars "add", [chars "a", chars "b"], []⟩

theorem runOps_length (ops : List StackOp) : ∀ st : StackState, st.disabled = false →
    (∀ n, n ≤ ops.length →
      numPops (ops.take n) ≤ st.stack.length + numPushes (ops.take n)) →
    (runOps st ops).stack.length = st.stack.length + numPushes ops - numPops ops := by
  induction ops with
  | nil => intro st _ _; simp [runOps, numPushes, numPops]
  | cons op rest ih =>
    intro st hd h
    have hfull := h (rest.length + 1) (by simp)
    rw [List.take_succ_cons, List.take_length] at hfull
    cases op with
    | push c =>
      have hlen : (ClassNameStack.insert st c).stack.length = st.stack.length + 1 := by
        simp [ClassNameStack.insert, hd]
      have hdis : (ClassNameStack.insert st c).disabled = false := by
        simp [ClassNameStack.insert, hd]
      have ihr := ih (ClassNameStack.insert st c) hdis (by
        intro n hn
        have hh := h (n + 1) (by simpa using Nat.succ_le_succ hn)
        rw [List.take_succ_cons] at hh
        simp only [numPops, numPushes] at hh
        rw [hlen]
        omega)
      have hrun : runOps st (StackOp.push c :: rest)
          = runOps (ClassNameStack.insert st c) rest := rfl
      rw [hrun, ihr, hlen]
      simp only [numPushes, numPops]
      omega
    | pop =>
      have h1 := h 1 (by simp)
      rw [List.take_succ_cons, List.take_zero] at h1
      simp only [numPops, numPushes] at h1
      have hlen : (ClassNameStack.pop st).stack.length = st.stack.length - 1 := by
        simp [ClassNameStack.pop, hd]
      have hdis : (ClassNameStack.pop st).disabled = false := by
        simp [ClassNameStack.pop, hd]
      have ihr := ih (ClassNameStack.pop st) hdis (by
        intro n hn
        have hh := h (n + 1) (by simpa using Nat.succ_le_succ hn)
        rw [List.take_succ_cons] at hh
        simp only [numPops, numPushes] at hh
        rw [hlen]
        omega)
      have hrun : runOps st (StackOp.pop :: rest)
          = runOps (ClassNameStack.pop st) rest := rfl
      rw [hrun, ihr, hlen]
      simp only [numPushes, numPops] at hfull ⊢
      omega

/-- C6: the literal depth formula `#pushes − #pops` (clamped at zero) fails
once a pop hits the empty stack mid-sequence: after push, pop, pop, push
the depth is 1, while the clamped formula gives 0.  Pop on empty is a no-op
there, not a fault, so the later push still lands. -/
theorem C6_counterexample :
    (runOps emptyStack
      [StackOp.push (chars "a"), StackOp.pop, StackOp.pop,
        StackOp.push (chars "b")]).stack.length = 1
    ∧ numPushes [StackOp.push (chars "a"), StackOp.pop, StackOp.pop,
        StackOp.push (chars "b")]
      - numPops [StackOp.push (chars "a"), StackOp.pop, StackOp.pop,
        StackOp.push (chars "b")] = 0
    ∧ (1 : Nat) ≠ 0 := by
  refine ⟨by decide, by decide, by decide⟩

/-- C6 (amended): starting from the empty enabled stack, the depth after a
push/pop sequence equals `#pushes − #pops` provided no pop ever hits the
empty stack (every take-`n` segment has at least as many pushes as pops);
moreover pop on an empty stack is a no-op, never a fault, and peek on an
empty stack returns the `None` sentinel (it never modifies the stack, being
a pure read of the class attribute). -/
theorem C6_amended :
    (∀ ops : List StackOp,
        (∀ n, n ≤ ops.length → numPops (ops.take n) ≤ numPushes (ops.take n)) →
        (runOps emptyStack ops).stack.length = numPushes ops - numPops ops)
    ∧ (∀ st : StackState, st.stack = [] → ClassNameStack.pop st = st)
    ∧ (∀ st : StackState, st.stack = [] → ClassNameStack.peek st = Option.none) := by
  refine ⟨?_, ?_, ?_⟩
  · intro ops h
    have := runOps_length ops emptyStack rfl (by
      intro n hn
      simpa [emptyStack] using h n hn)
    simpa [emptyStack] using this
  · intro st h
    cases st
    simp_all [ClassNameStack.pop]
  · intro st h
    simp [ClassNameStack.peek, h]

/-- Witness for C6 (amended) at the concrete sequence push, push, pop. -/
theorem C6_amended_witness :
    (runOps emptyStack
      [StackOp.push (chars "a"), StackOp.push (chars "b"), StackOp.pop]).stack.length
      = numPushes [StackOp.push (chars "a"), StackOp.push (chars "b"), StackOp.pop]
        - numPops [StackOp.push (chars "a"), StackOp.push (chars "b"), StackOp.pop]
    ∧ ClassNameStack.pop emptyStack = emptyStack
    ∧ ClassNameStack.peek emptyStack = Option.none :=
  ⟨C6_amended.1 _ (by decide), C6_amended.2.1 emptyStack rfl, C6_amended.2.2 emptyStack rfl⟩

/-- C9: the line-number column is the decimal digits zero-padded to the
configured minimum width and is never truncated (the digit string is a
suffix of the rendered column, whose width is the larger of the minimum and
the digit count); the function column is truncated or padded to exactly the
configured width, and with width 5 the name compute renders as compu. -/
theorem C9_columns :
    (∀ w n, (pyFormatZero w n).length = max w (natDigits n).length
        ∧ natDigits n <:+ pyFormatZero w n)
    ∧ (∀ w s, (pyFormatLJ w s).length = w)
    ∧ pyFormatLJ 5 (chars "compute") = chars "compu" := by
  refine ⟨?_, ?_, by decide⟩
  · intro w n
    refine ⟨?_, ⟨_, rfl⟩⟩
    simp only [pyFormatZero, List.length_append, List.length_replicate]
    omega
  · intro w s
    simp only [pyFormatLJ, List.length_append, List.length_replicate, List.length_take]
    omega

/-- C10: a wrapped call returning Python `None` yields the bare exit marker
with no return-value text and no type annotation, whatever the
return-value and return-type tracing flags say. -/
theorem C10_none_exit (traceRv traceRvType collapseL collapseD : Bool) :
    exitMsg traceRv traceRvType collapseL collapseD (PyVal.atom PyAtom.aNone)
      = chars "<- EXIT " := by
  simp [exitMsg]

/-- C8: for add(a, b) with argument tracing on, invoking with 2 and 3 gives
the ENTRY body a = 2, b = 3 and the EXIT body 5; with argument tracing off
and arguments present, the ENTRY body is the placeholder marker. -/
theorem C8_add_scenario :
    entryMsg false true false false [chars "a", chars "b"] []
        [PyVal.atom (PyAtom.aInt 2), PyVal.atom (PyAtom.aInt 3)] []
      = Except.ok (chars "-> ENTRY: a = 2, b = 3")
    ∧ exitMsg true false false false (PyVal.atom (PyAtom.aInt 5)) = chars "<- EXIT : 5"
    ∧ entryMsg false false false false [chars "a", chars "b"] []
        [PyVal.atom (PyAtom.aInt 2), PyVal.atom (PyAtom.aInt 3)] []
      = Except.ok (chars "-> ENTRY: ---") := by
  refine ⟨rfl, rfl, rfl⟩

/-- C1: contrary to the claim, `TraceFunction.__call__` never calls
`ClassNameStack.pop` on the exception path — the `raise` at line 306 is
reached straight after `trace_exception` with no pop, while line 309 pops
only after a normal return.  So whenever the wrapped callable raises and
force-exit is off, the recorded stack-method calls of the whole invocation
are exactly one push and zero pops, and the call ends by re-raising (or by
propagating an internal tracing exception, likewise without popping). -/
theorem C1_exception_path_no_pop (s : Settings) (o : TFOpts) (f : FnStruct)
    (st : StackState) (t tb : List Char) (args : List PyVal)
    (kwargs : List (List Char × PyVal)) (en em : List Char)
    (hexit : o.exception_exit = false) :
    (tfCall s o f st t tb args kwargs (FnBehavior.raises en em)).2.2
        = [StackOp.push f.classname]
    ∧ numPops (tfCall s o f st t tb args kwargs (FnBehavior.raises en em)).2.2 = 0
    ∧ ((tfCall s o f st t tb args kwargs (FnBehavior.raises en em)).1
          = TFOutcome.raisedWrapped
        ∨ ∃ e, (tfCall s o f st t tb args kwargs (FnBehavior.raises en em)).1
          = TFOutcome.raisedInternal e) := by
  simp only [tfCall]
  cases hE : entryTrace s o f (ClassNameStack.insert st f.classname) t args kwargs with
  | error e => exact ⟨rfl, rfl, Or.inr ⟨e, rfl⟩⟩
  | ok m =>
    cases hX : traceFn s (ClassNameStack.insert st f.classname) t f.filename f.lineno
        f.functionname (excMsg o.exception_tb_file en em tb) with
    | error e => exact ⟨rfl, rfl, Or.inr ⟨e, rfl⟩⟩
    | ok m2 =>
      rw [hexit]
      exact ⟨rfl, rfl, Or.inl rfl⟩

/-- Witness for C1 at a concrete invocation: `add` raising `ValueError`
under the default-style configuration (stack disabled, force-exit off). -/
theorem C1_exception_path_no_pop_witness :
    (tfCall settingsQuiet optsPlain fnAdd ⟨[], true⟩ [] [] [] []
        (FnBehavior.raises (chars "ValueError") (chars "boom"))).2.2
        = [StackOp.push fnAdd.classname]
    ∧ numPops (tfCall settingsQuiet optsPlain fnAdd ⟨[], true⟩ [] [] [] []
        (FnBehavior.raises (chars "ValueError") (chars "boom"))).2.2 = 0
    ∧ ((tfCall settingsQuiet optsPlain fnAdd ⟨[], true⟩ [] [] [] []
        (FnBehavior.raises (chars "ValueError") (chars "boom"))).1
          = TFOutcome.raisedWrapped
        ∨ ∃ e, (tfCall settingsQuiet optsPlain fnAdd ⟨[], true⟩ [] [] [] []
        (FnBehavior.raises (chars "ValueError") (chars "boom"))).1
          = TFOutcome.raisedInternal e) :=
  C1_exception_path_no_pop settingsQuiet optsPlain fnAdd ⟨[], true⟩ [] [] [] []
    (chars "ValueError") (chars "boom") rfl

/-- C2: contrary to the claim (and to the settings documentation, which
declares width 0 — the shipped default — to mean unlimited), `trace` passes
`message_width` straight to `textwrap.wrap`, which raises
`ValueError: invalid width 0` for every message whenever the width is 0 and
the message column is enabled; nothing is ever emitted verbatim. -/
theorem C2_width0_raises (s : Settings) (p : Nat) (m : List Char)
    (hmsg : s.trace_message = true) (hw : s.message_width = 0) :
    renderMessage s p m = Except.error PyErr.valueError := by
  have hline : ∀ idx l ls, renderLines s p idx (l :: ls) = Except.error PyErr.valueError := by
    intro idx l ls
    simp [renderLines, renderLine, hw]
  unfold renderMessage
  rw [hmsg]
  cases hsp : splitlinesPy m with
  | nil => simpa [hsp] using hline 0 [] []
  | cons l ls => simpa [hsp] using hline 0 l ls

/-- Witness for C2 at the shipped default width 0 and the message hi. -/
theorem C2_width0_raises_witness :
    renderMessage settingsW0 0 (chars "hi") = Except.error PyErr.valueError :=
  C2_width0_raises settingsW0 0 (chars "hi") rfl rfl

/-- C3: contrary to the claim, the function column is not built from
`ClassNameStack.peek` and formatting can fail: line 493 of pylg.py calls
`ClassNameStack.get()`, a method that only exists after `disable()` has
replaced it (which happens exactly when scope qualification is turned
off).  Hence with qualification enabled (stack not disabled) every `trace`
call raises `AttributeError` before producing any line. -/
theorem C3_get_attribute_error (s : Settings) (st : StackState)
    (t f : List Char) (ln : Nat) (fn m : List Char) (h : st.disabled = false) :
    traceFn s st t f ln fn m = Except.error PyErr.attributeError := by
  unfold traceFn ClassNameStack.get
  rw [h]
  simp

/-- Witness for C3: any trace call against the enabled (never-disabled)
stack fails with `AttributeError`. -/
theorem C3_get_attribute_error_witness :
    traceFn settingsQuiet emptyStack [] [] 0 [] [] = Except.error PyErr.attributeError :=
  C3_get_attribute_error settingsQuiet emptyStack [] [] 0 [] [] rfl

/-- C4: contrary to the claim, truncation marking does not always emit a
marked line of width w: for the message consisting of three blanks then
abcd at width 3 (wrap off, marking on), the greedy wrap has three segments
whose first is all blanks, the re-wrap of that first segment at width 2 is
empty, and the source's `assert wrapped` fails — the trace call dies with
`AssertionError` instead of emitting a truncated line. -/
theorem C4_truncation_assert_failure :
    renderMessage settingsTrunc3 0 (chars "   abcd") = Except.error PyErr.assertionError
    ∧ 1 < (wrapLines 3 (chars "   abcd")).length
    ∧ wrapLines 2 (chars "   ") = [] := by
  refine ⟨rfl, by decide, by decide⟩

theorem ends_nl_cons (a : List Char) (c : Char) : ∃ r0, a ++ [c, '\n'] = r0 ++ ['\n'] :=
  ⟨a ++ [c], by simp⟩

theorem ends_nl_append (a b : List Char) (h : ∃ b0, b = b0 ++ ['\n']) :
    ∃ r0, a ++ b = r0 ++ ['\n'] := by
  obtain ⟨b0, rfl⟩ := h
  exact ⟨a ++ b0, by rw [List.append_assoc]⟩

theorem renderLine_ok_ends (s : Settings) (p idx : Nat) (l r : List Char)
    (h : renderLine s p idx l = Except.ok r) : ∃ r0, r = r0 ++ ['\n'] := by
  simp only [renderLine] at h
  repeat' split at h
  all_goals cases h
  all_goals
    first
      | exact ⟨_, rfl⟩
      | exact ends_nl_cons _ '\\'

theorem renderLines_ok_ends (s : Settings) (p : Nat) (ls : List (List Char)) :
    ∀ (idx : Nat) (out : List Char), ls ≠ [] →
      renderLines s p idx ls = Except.ok out → ∃ o0, out = o0 ++ ['\n'] := by
  induction ls with
  | nil => intro idx out h; exact absurd rfl h
  | cons l ls ih =>
    intro idx out _ h
    unfold renderLines at h
    cases hL : renderLine s p idx l with
    | error e => rw [hL] at h; cases h
    | ok r =>
      rw [hL] at h
      cases hR : renderLines s p (idx + 1) ls with
      | error e => rw [hR] at h; cases h
      | ok rest =>
        rw [hR] at h
        cases h
        cases ls with
        | nil =>
          have hrest : rest = [] := by
            unfold renderLines at hR
            cases hR
            rfl
          subst hrest
          obtain ⟨r0, hr0⟩ := renderLine_ok_ends s p idx l r hL
          exact ⟨r0, by simp [hr0]⟩
        | cons a as =>
          exact ends_nl_append r rest (ih (idx + 1) rest (by simp) hR)

theorem splitlines_decomp : ∀ o0 : List Char,
    splitlinesPy (o0 ++ ['\n']) ≠ []
    ∧ (∀ l ∈ splitlinesPy (o0 ++ ['\n']), '\n' ∉ l)
    ∧ catChunks ((splitlinesPy (o0 ++ ['\n'])).map (fun l => l ++ ['\n'])) = o0 ++ ['\n'] := by
  intro o0
  induction o0 with
  | nil => refine ⟨by decide, by decide, by decide⟩
  | cons c o0 ih =>
    obtain ⟨h1, h2, h3⟩ := ih
    have hstep : (c :: o0) ++ ['\n'] = c :: (o0 ++ ['\n']) := rfl
    by_cases hc : c = '\n'
    · subst hc
      have hsplit : splitlinesPy (('\n' :: o0) ++ ['\n'])
          = [] :: splitlinesPy (o0 ++ ['\n']) := by
        rw [hstep, splitlinesPy.eq_2, if_pos rfl]
      refine ⟨by rw [hsplit]; simp, ?_, ?_⟩
      · intro l hl
        rw [hsplit] at hl
        rcases List.mem_cons.mp hl with hl | hl
        · subst hl; simp
        · exact h2 l hl
      · rw [hsplit]
        simp only [List.map_cons, catChunks, List.nil_append, List.singleton_append]
        rw [h3]
        rfl
    · cases htail : splitlinesPy (o0 ++ ['\n']) with
      | nil => exact absurd htail h1
      | cons a as =>
        have hsplit : splitlinesPy ((c :: o0) ++ ['\n']) = (c :: a) :: as := by
          rw [hstep, splitlinesPy.eq_2, if_neg hc, htail]
        refine ⟨by rw [hsplit]; simp, ?_, ?_⟩
        · intro l hl
          rw [hsplit] at hl
          rcases List.mem_cons.mp hl with hl | hl
          · subst hl
            intro hmem
            rcases List.mem_cons.mp hmem with hmem | hmem
            · exact hc hmem.symm
            · exact h2 a (htail ▸ List.mem_cons_self a as) hmem
          · exact h2 l (by rw [htail]; exact List.mem_cons_of_mem a hl)
        · rw [hsplit]
          rw [htail] at h3
          simp only [List.map_cons, catChunks, List.append_assoc, List.cons_append,
            List.singleton_append] at h3 ⊢
          rw [h3]

theorem renderMessage_empty (s : Settings) (p : Nat) (hmsg : s.trace_message = true)
    (hw : s.message_width ≠ 0) : renderMessage s p [] = Except.ok ['\n'] := by
  cases hwr : s.message_wrap <;>
    simp [renderMessage, hmsg, renderLines, renderLine, hw, hwr, wrapLines, pyMunge,
      pyReplaceWS, pyExpandTabsGo, splitChunks, chunkMeasure, wrapGo, padJoin,
      splitlinesPy, catChunks]

/-- C7 (amended): with the message column enabled and a positive message
width, whenever `trace`'s message rendering completes without raising (the
width-0 `ValueError` and the truncation-marking `AssertionError` are
reported separately), the rendered block splits into physical lines each
free of line feeds and each terminated by exactly one line feed; and the
empty message always renders as exactly one empty message line. -/
theorem C7_message_lines (s : Settings) (p : Nat) (msg out : List Char)
    (hmsg : s.trace_message = true) (hw : 1 ≤ s.message_width)
    (hok : renderMessage s p msg = Except.ok out) :
    (splitlinesPy out ≠ []
      ∧ (∀ l ∈ splitlinesPy out, '\n' ∉ l)
      ∧ catChunks ((splitlinesPy out).map (fun l => l ++ ['\n'])) = out)
    ∧ (msg = [] → out = ['\n']) := by
  constructor
  · have hend : ∃ o0, out = o0 ++ ['\n'] := by
      unfold renderMessage at hok
      rw [hmsg] at hok
      simp only [if_pos] at hok
      cases hsp : splitlinesPy msg with
      | nil =>
        rw [hsp] at hok
        exact renderLines_ok_ends s p [[]] 0 out (by simp) (by simpa using hok)
      | cons a as =>
        rw [hsp] at hok
        exact renderLines_ok_ends s p (a :: as) 0 out (by simp) (by simpa using hok)
    obtain ⟨o0, rfl⟩ := hend
    exact splitlines_decomp o0
  · intro hmsg0
    subst hmsg0
    have hempty := renderMessage_empty s p hmsg (by omega)
    rw [hempty] at hok
    cases hok
    rfl

/-- Witness for C7 (amended) at the empty message under width 10 wrap
settings. -/
theorem C7_message_lines_witness :
    ((splitlinesPy ['\n'] ≠ []
      ∧ (∀ l ∈ splitlinesPy ['\n'], '\n' ∉ l)
      ∧ catChunks ((splitlinesPy ['\n']).map (fun l => l ++ ['\n'])) = ['\n'])
    ∧ (([] : List Char) = [] → ['\n'] = ['\n'])) :=
  C7_message_lines settingsWrap10 0 [] ['\n'] rfl (by decide) rfl

/-- C7 counterexample to the unamended claim: at the shipped default
message width 0 the empty message does not produce one empty line — the
rendering raises `ValueError` and nothing at all is emitted. -/
theorem C7_counterexample :
    renderMessage settingsW0 0 [] = Except.error PyErr.valueError := rfl

theorem sumLen_dropLast_le (cs : List (List Char)) : sumLen cs.dropLast ≤ sumLen cs := by
  induction cs with
  | nil => simp [sumLen]
  | cons c cs ih =>
    cases cs with
    | nil =>
      simp only [List.dropLast_single, sumLen]
      omega
    | cons d ds =>
      simp only [List.dropLast_cons₂, sumLen]
      have := ih
      simp only [sumLen] at this
      omega

theorem splitlinesPy_no_nl (l : List Char) (h : '\n' ∉ l) :
    splitlinesPy l = if l = [] then [] else [l] := by
  induction l with
  | nil => rfl
  | cons c cs ih =>
    have hc : c ≠ '\n' := by
      rintro rfl
      exact h (List.mem_cons_self _ _)
    have hcs : '\n' ∉ cs := fun hx => h (List.mem_cons_of_mem c hx)
    rw [splitlinesPy.eq_2, if_neg hc, ih hcs]
    by_cases hnil : cs = []
    · subst hnil
      simp
    · rw [if_neg hnil]
      simp

theorem orEmptyLine_ne_nil (wr : List (List Char)) : orEmptyLine wr ≠ [] := by
  cases wr <;> simp [orEmptyLine]

theorem renderLine_wrap_eq (s : Settings) (p : Nat) (l : List Char)
    (hwrap : s.message_wrap = true) (hw : s.message_width ≠ 0) :
    renderLine s p 0 l
      = Except.ok (padJoin p (orEmptyLine (wrapLines s.message_width l)) ++ ['\n']) := by
  unfold renderLine
  rw [if_neg hw]
  cases hwl : wrapLines s.message_width l with
  | nil => simp [hwrap, orEmptyLine, padJoin]
  | cons a tl => simp [hwrap, orEmptyLine]

theorem renderMessage_wrap_eq (s : Settings) (p : Nat) (msg : List Char)
    (hmsg : s.trace_message = true) (hwrap : s.message_wrap = true)
    (hw : s.message_width ≠ 0) (hnl : '\n' ∉ msg) :
    renderMessage s p msg
      = Except.ok (padJoin p (orEmptyLine (wrapLines s.message_width msg)) ++ ['\n']) := by
  have hL : ∀ l : List Char, renderLines s p 0 [l]
      = Except.ok (padJoin p (orEmptyLine (wrapLines s.message_width l)) ++ ['\n']) := by
    intro l
    rw [renderLines.eq_2, renderLine_wrap_eq s p l hwrap hw]
    simp [renderLines]
  unfold renderMessage
  rw [hmsg]
  rw [if_pos rfl, splitlinesPy_no_nl msg hnl]
  by_cases hmn : msg = []
  · subst hmn
    rw [if_pos rfl]
    simpa using hL []
  · rw [if_neg hmn]
    simpa using hL msg

end PyLg
